import Mathlib

/-!
Shallow embedding of the BadgerDB B+ tree index engine of this repository
(`src/Btree/submission/btree.cpp`, with the older variant
`src/Btree/src/btree.cpp` embedded where a claim cites it).

Machine integers: the C++ `int` key type is modelled as `Int` (all key
comparisons in the source are plain signed comparisons, no arithmetic that
could overflow), page ids (`PageId`, a `uint32_t`) and slot numbers as `Nat`.
Fixed-size on-page arrays (`keyArray[ ]`, `ridArray[ ]`, `pageNoArray[ ]`)
are modelled as total functions `Nat → _` together with the capacity
(`leafOccupancy` / `nodeOccupancy`) carried separately, exactly as the
source carries `INTARRAYLEAFSIZE` / `INTARRAYNONLEAFSIZE` next to the raw
arrays; an assignment `a[i] = v` becomes a pointwise update.  Calls into the
buffer manager are recorded as an explicit trace of operations (`BufOp`), so
pin/unpin balance is the trace's arithmetic.  Thrown exceptions become an
`Option BTreeError` result.
-/

namespace badgerdb

/-- RecordId of the base relation: `{ page_number; slot_number }`.
`page_number == 0` is the source's sentinel for an unused leaf slot. -/
structure RecordId where
  page_number : Nat
  slot_number : Nat
  deriving DecidableEq, Repr

/-- Scan operators, enum `Operator { LT, LTE, GTE, GT }` of the page framework. -/
inductive Operator where
  | LT | LTE | GTE | GT
  deriving DecidableEq, Repr

/-- Attribute datatype tag, enum `Datatype { INTEGER, DOUBLE, STRING }`. -/
inductive Datatype where
  | INTEGER | DOUBLE | STRING
  deriving DecidableEq, Repr

/-- Exceptions the engine throws (each a distinct exception class in the source). -/
inductive BTreeError where
  | badIndexInfo
  | badOpcodes
  | badScanrange
  | noSuchKeyFound
  | scanNotInitialized
  | indexScanCompleted
  deriving DecidableEq, Repr

/-- Buffer-manager calls, recorded as a trace. -/
inductive BufOp where
  | readPage (pageNo : Nat)
  | allocPage (pageNo : Nat)
  | unPinPage (pageNo : Nat) (dirty : Bool)
  deriving DecidableEq, Repr

/-- Pointwise array update: the meaning of the C++ assignment `a[i] = v`
on an array modelled as a total function. -/
def setIdx {α : Type} (a : Nat → α) (i : Nat) (v : α) : Nat → α :=
  fun j => if j = i then v else a j

/-- Leaf page layout `LeafNodeInt`: `keyArray[INTARRAYLEAFSIZE]`,
`ridArray[INTARRAYLEAFSIZE]`, `rightSibPageNo`. -/
structure LeafNodeInt where
  keyArray : Nat → Int
  ridArray : Nat → RecordId
  rightSibPageNo : Nat

/-- Interior page layout `NonLeafNodeInt`: `level`,
`keyArray[INTARRAYNONLEAFSIZE]`, `pageNoArray[INTARRAYNONLEAFSIZE + 1]`. -/
structure NonLeafNodeInt where
  level : Int
  keyArray : Nat → Int
  pageNoArray : Nat → Nat

/-- Header-page record `IndexMetaInfo`: relation name (20 bytes, NUL
terminated by `meta->relationName[19] = 0`), attribute byte offset,
attribute type and current root page id. -/
structure IndexMetaInfo where
  relationName : String
  attrByteOffset : Int
  attrType : Datatype
  rootPageNo : Nat

/-- Pending interior entry `PageKeyPair<int>`. -/
structure PageKeyPair where
  pageNo : Nat
  key : Int
  deriving DecidableEq, Repr

/-- Leaf data entry `RIDKeyPair<int>`. -/
structure RIDKeyPair where
  rid : RecordId
  key : Int
  deriving DecidableEq, Repr

/-! ### Index-file naming (constructor, both variants) -/

/-- Index-file name built by `src/Btree/submission/btree.cpp` lines 75-77:
`idxStr << relationName << "." << attrByteOffset`. -/
def submissionIndexName (relationName : String) (attrByteOffset : Int) : String :=
  relationName ++ "." ++ toString attrByteOffset

/-- Index-file name built by `src/Btree/src/btree.cpp` lines 55-57:
`idxStr << relationName << " . " << attrByteOffset` (spaces around the dot). -/
def srcIndexName (relationName : String) (attrByteOffset : Int) : String :=
  relationName ++ " . " ++ toString attrByteOffset

/-! ### Constructor, create-new-file path -/

/-- Modelled from the spec: `BufMgr::allocPage` and the `Page` class are
collaborator code not under `src/`; per the spec a freshly allocated page is
handed out in the all-zero state an empty leaf requires (`rightSibPageNo = 0`,
all rid slots zeroed), which is what the engine's code relies on everywhere
it allocates a node and leaves its unused slots untouched. -/
def allocLeafPage : LeafNodeInt :=
  { keyArray := fun _ => 0
    ridArray := fun _ => { page_number := 0, slot_number := 0 }
    rightSibPageNo := 0 }

/-- Modelled from the spec: a freshly allocated page viewed as an interior
node (level, keys and children all zero). -/
def allocNonLeafPage : NonLeafNodeInt :=
  { level := 0, keyArray := fun _ => 0, pageNoArray := fun _ => 0 }

/-- Create-new-file path of the submission constructor (lines 109-137):
allocate header and root pages, fill in `IndexMetaInfo` (with
`strncpy(..., 20)` and `relationName[19] = 0`, i.e. at most 19 characters
kept), and leave the root page as allocated (the explicit
`root->rightSibPageNo = 0` is commented out in the submission variant; the
src variant performs it, a no-op on the fresh page).  Returns the header
record and the initial root leaf. -/
def buildNewIndex (relationName : String) (attrByteOffset : Int)
    (attrType : Datatype) (rootPageNum : Nat) : IndexMetaInfo × LeafNodeInt :=
  ({ relationName := relationName.take 19
     attrByteOffset := attrByteOffset
     attrType := attrType
     rootPageNo := rootPageNum },
   { allocLeafPage with rightSibPageNo := 0 })

/-! ### Constructor, open-existing-file path (both variants) -/

/-- Open-existing path of the submission constructor (lines 88-107): read the
header page, compare stored metadata with the constructor arguments, throw
`BadIndexInfoException` on mismatch, and only after the check unpin the
header page clean.  Returns the buffer-operation trace and the thrown error. -/
def submissionOpenExisting (stored : IndexMetaInfo) (relationName : String)
    (attrType : Datatype) (attrByteOffset : Int) (headerPageNum : Nat) :
    List BufOp × Option BTreeError :=
  if relationName ≠ stored.relationName ∨ attrType ≠ stored.attrType ∨
      attrByteOffset ≠ stored.attrByteOffset then
    ([BufOp.readPage headerPageNum], some BTreeError.badIndexInfo)
  else
    ([BufOp.readPage headerPageNum, BufOp.unPinPage headerPageNum false], none)

/-- Open-existing path of the src-variant constructor (lines 69-91): read the
header page, unpin it clean, then compare metadata and throw
`BadIndexInfoException` on mismatch. -/
def srcOpenExisting (stored : IndexMetaInfo) (relationName : String)
    (attrType : Datatype) (attrByteOffset : Int) (headerPageNum : Nat) :
    List BufOp × Option BTreeError :=
  if relationName ≠ stored.relationName ∨ attrType ≠ stored.attrType ∨
      attrByteOffset ≠ stored.attrByteOffset then
    ([BufOp.readPage headerPageNum, BufOp.unPinPage headerPageNum false],
     some BTreeError.badIndexInfo)
  else
    ([BufOp.readPage headerPageNum, BufOp.unPinPage headerPageNum false], none)

/-- Net pin count a trace leaves on page `p`: pins (readPage/allocPage)
minus releases (unPinPage). -/
def pinBalance (p : Nat) (ops : List BufOp) : Int :=
  ops.foldl
    (fun n op =>
      match op with
      | BufOp.readPage q => if q = p then n + 1 else n
      | BufOp.allocPage q => if q = p then n + 1 else n
      | BufOp.unPinPage q _ => if q = p then n - 1 else n)
    0

/-! ### Scan state and `startScan` validation prologue -/

/-- The scan-related fields of `BTreeIndex` (submission variant), together
with the root bookkeeping the scan reads.  `currentPageData` caches the
pinned leaf's contents (the `Page*` of the source); `nextEntry` is a C++
`int`, hence `Int` (endScan stores `-1` into it). -/
structure ScanState where
  leafOccupancy : Nat
  nodeOccupancy : Nat
  rootPageNum : Nat
  initialRootPageId : Nat
  scanExecuting : Bool
  lowValInt : Int
  highValInt : Int
  lowOp : Operator
  highOp : Operator
  currentPageNum : Nat
  currentPageData : Option LeafNodeInt
  nextEntry : Int

/-- `BTreeIndex::endScan` (submission lines 699-712): throw
`ScanNotInitializedException` when no scan is executing, else unpin the
current scan page clean (a `PageNotPinnedException` is swallowed, so the
trace records the attempt) and reset the scan fields (`nextEntry = -1`,
`currentPageNum = static_cast<PageId>(-1)`, i.e. 4294967295). -/
def endScan (s : ScanState) : ScanState × List BufOp × Option BTreeError :=
  if s.scanExecuting = false then
    (s, [], some BTreeError.scanNotInitialized)
  else
    ({ s with nextEntry := -1, currentPageData := none,
              scanExecuting := false,
              currentPageNum := 4294967295 },
     [BufOp.unPinPage s.currentPageNum false], none)

/-- Validation prologue of `BTreeIndex::startScan` (submission lines
507-530): store the low and high values, throw `BadOpcodesException` when
the operator pair is outside {GT, GTE} x {LT, LTE}, then throw
`BadScanrangeException` when `lowValInt > highValInt`; only then end a
running scan, mark the scan executing, record the operators and pin the
root page.  The remainder of `startScan` (the descent and the leaf search,
lines 532-624) throws only `NoSuchKeyFoundException`, so this prologue
decides everything the validation claims state.  The descent is not
modelled here; the result is the state as of line 530. -/
def startScanPrologue (s : ScanState) (lowVal : Int) (lowOpParm : Operator)
    (highVal : Int) (highOpParm : Operator) :
    ScanState × List BufOp × Option BTreeError :=
  let s1 := { s with lowValInt := lowVal, highValInt := highVal }
  if ¬ ((lowOpParm = Operator.GT ∨ lowOpParm = Operator.GTE) ∧
        (highOpParm = Operator.LT ∨ highOpParm = Operator.LTE)) then
    (s1, [], some BTreeError.badOpcodes)
  else if s1.lowValInt > s1.highValInt then
    (s1, [], some BTreeError.badScanrange)
  else
    let ended :=
      if s1.scanExecuting then ((endScan s1).1, (endScan s1).2.1) else (s1, [])
    let s3 := { ended.1 with scanExecuting := true, lowOp := lowOpParm,
                             highOp := highOpParm,
                             currentPageNum := ended.1.rootPageNum }
    (s3, ended.2 ++ [BufOp.readPage s3.currentPageNum], none)

/-! ### Insertion descent: choice of child -/

/-- Loop of `BTreeIndex::findNextInternal` (submission lines 269-277) run
from index `i` down to `1`, falling through to `pageNoArray[0]`. -/
def findNextLoop (internal : NonLeafNodeInt) (key : Int) : Nat → Nat
  | 0 => internal.pageNoArray 0
  | i + 1 =>
    if internal.pageNoArray (i + 1) ≠ 0 ∧ internal.keyArray i < key then
      internal.pageNoArray (i + 1)
    else
      findNextLoop internal key i

/-- `BTreeIndex::findNextInternal`: scan `i` from `nodeOccupancy` down to 1
and return `pageNoArray[i]` for the first (hence largest) `i` with
`pageNoArray[i] != 0 && keyArray[i-1] < key`; otherwise `pageNoArray[0]`. -/
def findNextInternal (nodeOccupancy : Nat) (internal : NonLeafNodeInt)
    (key : Int) : Nat :=
  findNextLoop internal key nodeOccupancy

/-- The routing condition of `findNextInternal` at child index `i ≥ 1`:
`pageNoArray[i] != 0 && keyArray[i-1] < key`. -/
def routeHit (internal : NonLeafNodeInt) (key : Int) (i : Nat) : Prop :=
  internal.pageNoArray i ≠ 0 ∧ internal.keyArray (i - 1) < key

instance (internal : NonLeafNodeInt) (key : Int) (i : Nat) :
    Decidable (routeHit internal key i) := by
  unfold routeHit; infer_instance

/-! ### Leaf insertion (no split) -/

/-- Write entry `e` into slot `i` of a leaf: `keyArray[i] = e.key;
ridArray[i] = e.rid`. -/
def placeEntry (leaf : LeafNodeInt) (i : Nat) (e : RIDKeyPair) : LeafNodeInt :=
  { leaf with keyArray := setIdx leaf.keyArray i e.key
              ridArray := setIdx leaf.ridArray i e.rid }

/-- Body of the right-to-left loop of `BTreeIndex::insertLeaf` (submission
lines 376-389), run for index `i`, then `i-1`, ..., then `0`, falling
through to `placeEntry leaf 0 e` when the loop finishes without returning:
an occupied slot with `keyArray[i] > e.key` is shifted one position right;
at the first occupied slot with `keyArray[i] <= e.key` the entry is placed
at `i+1` and the function returns; unoccupied slots are skipped. -/
def insertLeafLoop (e : RIDKeyPair) : LeafNodeInt → Nat → LeafNodeInt
  | leaf, i =>
    if (leaf.ridArray i).page_number ≠ 0 then
      if leaf.keyArray i > e.key then
        let leaf' :=
          { leaf with keyArray := setIdx leaf.keyArray (i + 1) (leaf.keyArray i)
                      ridArray := setIdx leaf.ridArray (i + 1) (leaf.ridArray i) }
        match i with
        | 0 => placeEntry leaf' 0 e
        | i' + 1 => insertLeafLoop e leaf' i'
      else
        placeEntry leaf (i + 1) e
    else
      match i with
      | 0 => placeEntry leaf 0 e
      | i' + 1 => insertLeafLoop e leaf i'

/-- `BTreeIndex::insertLeaf` (submission lines 374-393): when the leaf is
empty (`ridArray[0].page_number == 0`) place the entry at slot 0, otherwise
run the right-to-left shift loop from `leafOccupancy - 1`. -/
def insertLeaf (leafOccupancy : Nat) (leaf : LeafNodeInt) (e : RIDKeyPair) :
    LeafNodeInt :=
  if (leaf.ridArray 0).page_number ≠ 0 then
    match leafOccupancy with
    | 0 => placeEntry leaf 0 e
    | l + 1 => insertLeafLoop e leaf l
  else
    placeEntry leaf 0 e

/-! ### Leaf split -/

/-- Split point of `BTreeIndex::splitLeaf` (submission lines 331-336):
`if (leafOccupancy % 2) mid = leafOccupancy / 2; else
mid = leafOccupancy / 2 + 1;` — i.e. `L/2` for odd `L` and `L/2 + 1`
for even `L`. -/
def splitLeafMid (leafOccupancy : Nat) : Nat :=
  if leafOccupancy % 2 ≠ 0 then leafOccupancy / 2 else leafOccupancy / 2 + 1

/-- One iteration of the copy loop of `splitLeaf` (submission lines
339-344) at index `i`: `newLeaf.keyArray[i-mid] = leaf.keyArray[i];
newLeaf.ridArray[i-mid] = leaf.ridArray[i]; leaf.keyArray[i] = 0;
leaf.ridArray[i].page_number = 0`. -/
def splitLeafMoveStep (mid i : Nat) (p : LeafNodeInt × LeafNodeInt) :
    LeafNodeInt × LeafNodeInt :=
  let leaf := p.1
  let newLeaf := p.2
  let newLeaf' :=
    { newLeaf with keyArray := setIdx newLeaf.keyArray (i - mid) (leaf.keyArray i)
                   ridArray := setIdx newLeaf.ridArray (i - mid) (leaf.ridArray i) }
  let leaf' :=
    { leaf with keyArray := setIdx leaf.keyArray i 0
                ridArray := setIdx leaf.ridArray i
                  { leaf.ridArray i with page_number := 0 } }
  (leaf', newLeaf')

/-- The copy loop of `splitLeaf`, run for `n` iterations starting at index
`i` (the source runs it for `i` from `mid` to `leafOccupancy - 1`). -/
def splitLeafMoveFrom (mid : Nat) : Nat → Nat → LeafNodeInt × LeafNodeInt →
    LeafNodeInt × LeafNodeInt
  | _, 0, p => p
  | i, n + 1, p => splitLeafMoveFrom mid (i + 1) n (splitLeafMoveStep mid i p)

/-- The copy loop of `splitLeaf` in full: indices `[mid, leafOccupancy)`. -/
def splitLeafMove (mid leafOccupancy : Nat) (leaf newLeaf : LeafNodeInt) :
    LeafNodeInt × LeafNodeInt :=
  splitLeafMoveFrom mid mid (leafOccupancy - mid) (leaf, newLeaf)

/-- Result of `splitLeaf`: the two leaves, the pending copy-up entry and
which side received the new entry. -/
structure SplitLeafResult where
  leaf : LeafNodeInt
  newLeaf : LeafNodeInt
  copyUp : PageKeyPair
  insertedIntoNew : Bool

/-- `BTreeIndex::splitLeaf` (submission lines 324-367), page bookkeeping
aside: allocate a new leaf, move slots `[mid, leafOccupancy)` across, insert
the new entry into the new leaf when `newEntry.key > leaf.keyArray[mid-1]`
and into the old one otherwise, splice the sibling chain and copy up the new
leaf's smallest key. -/
def splitLeaf (leafOccupancy : Nat) (leaf : LeafNodeInt) (newPageId : Nat)
    (newEntry : RIDKeyPair) : SplitLeafResult :=
  let mid := splitLeafMid leafOccupancy
  let moved := splitLeafMove mid leafOccupancy leaf allocLeafPage
  let intoNew : Bool := decide (newEntry.key > moved.1.keyArray (mid - 1))
  let leaf2 := if intoNew then moved.1 else insertLeaf leafOccupancy moved.1 newEntry
  let newLeaf2 := if intoNew then insertLeaf leafOccupancy moved.2 newEntry else moved.2
  let newLeaf3 := { newLeaf2 with rightSibPageNo := leaf2.rightSibPageNo }
  let leaf3 := { leaf2 with rightSibPageNo := newPageId }
  { leaf := leaf3
    newLeaf := newLeaf3
    copyUp := { pageNo := newPageId, key := newLeaf3.keyArray 0 }
    insertedIntoNew := intoNew }

/-! ### `scanNext` -/

/-- The `validKey` computation shared by `startScan` and `scanNext`
(submission lines 670-679): the operator pair selects one of the four
range predicates, the `GT/LT` pair being the fall-through `else`. -/
def validKey (lowOp highOp : Operator) (lowVal highVal key : Int) : Bool :=
  if lowOp = Operator.GTE ∧ highOp = Operator.LTE then
    key ≤ highVal ∧ key ≥ lowVal
  else if lowOp = Operator.GT ∧ highOp = Operator.LTE then
    key ≤ highVal ∧ key > lowVal
  else if lowOp = Operator.GTE ∧ highOp = Operator.LT then
    key < highVal ∧ key ≥ lowVal
  else
    key < highVal ∧ key > lowVal

/-- Outcome of one `scanNext` call: the updated state, the value of the
caller's `outRid` variable afterwards, the exception thrown (if any), the
trace of buffer operations, and the list of `keyArray`/`ridArray` subscripts
used on leaf pages, in evaluation order (`nextEntry` is a C++ `int`, so a
subscript is an `Int`). -/
structure ScanNextResult where
  state : ScanState
  outRid : RecordId
  error : Option BTreeError
  ops : List BufOp
  accesses : List Int

/-- Tail of `BTreeIndex::scanNext` (submission lines 667-687) once the
current node is settled: read `keyArray[nextEntry]`, test `validKey`, and
either write the rid out and advance `nextEntry` or throw
`IndexScanCompletedException`. -/
def scanNextFinish (s : ScanState) (node : LeafNodeInt) (outRid : RecordId)
    (ops : List BufOp) (acc : List Int) : ScanNextResult :=
  let key := node.keyArray s.nextEntry.toNat
  let acc1 := acc ++ [s.nextEntry]
  if validKey s.lowOp s.highOp s.lowValInt s.highValInt key then
    { state := { s with nextEntry := s.nextEntry + 1 }
      outRid := node.ridArray s.nextEntry.toNat
      error := none
      ops := ops
      accesses := acc1 ++ [s.nextEntry] }
  else
    { state := s, outRid := outRid, error := some BTreeError.indexScanCompleted
      ops := ops, accesses := acc1 }

/-- `BTreeIndex::scanNext` (submission lines 643-688).  `store` maps a page
id to its leaf contents (the buffer manager's `readPage`).  The end-of-leaf
test `!node->ridArray[nextEntry].page_number || nextEntry == leafOccupancy`
evaluates the `ridArray` subscript first (recorded first in `accesses`); on
entry to the sibling leaf `nextEntry` is reset to 0. -/
def scanNext (store : Nat → LeafNodeInt) (s : ScanState) (outRid : RecordId) :
    ScanNextResult :=
  if s.scanExecuting = false then
    { state := s, outRid := outRid, error := some BTreeError.scanNotInitialized
      ops := [], accesses := [] }
  else
    let node := s.currentPageData.getD allocLeafPage
    let acc0 := [s.nextEntry]
    if (node.ridArray s.nextEntry.toNat).page_number = 0 ∨
        s.nextEntry = (s.leafOccupancy : Int) then
      let ops1 := [BufOp.unPinPage s.currentPageNum false]
      if node.rightSibPageNo = 0 then
        { state := s, outRid := outRid
          error := some BTreeError.indexScanCompleted
          ops := ops1, accesses := acc0 }
      else
        let node2 := store node.rightSibPageNo
        let s2 := { s with currentPageNum := node.rightSibPageNo
                           currentPageData := some node2
                           nextEntry := 0 }
        scanNextFinish s2 node2 outRid
          (ops1 ++ [BufOp.readPage node.rightSibPageNo]) acc0
    else
      scanNextFinish s node outRid [] acc0

/-! ### Insert engine (`insertEntry` / `insert` and the split helpers)

The recursive insert mutates pages through the buffer pool; the embedding
threads an explicit page store.  The C++ returns the pending interior entry
through `PageKeyPair<int> *&newInternal`; both `splitLeaf` and
`splitInternal` end with `newInternal = &local` where `local`
(`newKeyPair` / `pushupEntry`) is a stack variable of the callee, so by the
time the caller tests and dereferences `newInternal` the object is dead.
The embedding carries the pending entry by value together with a `Bool`
that is `true` when the pointer the caller received aims at a dead frame;
a caller's dereference of such a pending entry sets `danglingUse` on the
state.  The value itself is modelled as the last value the local held
(what the C++ reads is unspecified). -/

/-- A page of the index file, as the engine interprets it. -/
inductive NodePage where
  | leaf (l : LeafNodeInt)
  | internal (n : NonLeafNodeInt)
  | free

/-- Reading a page as `LeafNodeInt*` (`reinterpret_cast` in the source). -/
def asLeaf : NodePage → LeafNodeInt
  | NodePage.leaf l => l
  | _ => allocLeafPage

/-- Reading a page as `NonLeafNodeInt*`. -/
def asInternal : NodePage → NonLeafNodeInt
  | NodePage.internal n => n
  | _ => allocNonLeafPage

/-- Whole-index state threaded through the insert engine: the capacities,
the header/root bookkeeping of `BTreeIndex`, the page store, the next page
id `allocPage` hands out, and the flag recording that a pending entry
returned through the address of a dead local was dereferenced. -/
structure BTreeState where
  leafOccupancy : Nat
  nodeOccupancy : Nat
  headerPageNum : Nat
  rootPageNum : Nat
  initialRootPageId : Nat
  metaRootPageNo : Nat
  store : Nat → NodePage
  nextFreePage : Nat
  danglingUse : Bool

/-- Body of the right-to-left loop of `BTreeIndex::insertInternal`
(submission lines 464-479), run for index `i` down to `0`, falling through
to `keyArray[0] = key; pageNoArray[1] = pageNo`.  The C++ loop reaches
`i = 0` and would read `keyArray[-1]` on an occupied slot there; the
embedding reads `keyArray (0 - 1) = keyArray 0` (Nat truncation) — no run
evaluated below reaches that corner. -/
def insertInternalLoop (e : PageKeyPair) : NonLeafNodeInt → Nat → NonLeafNodeInt
  | node, i =>
    if node.pageNoArray i = 0 then
      match i with
      | 0 =>
        { node with keyArray := setIdx node.keyArray 0 e.key
                    pageNoArray := setIdx node.pageNoArray 1 e.pageNo }
      | i' + 1 => insertInternalLoop e node i'
    else
      if node.keyArray (i - 1) > e.key then
        let node' :=
          { node with keyArray := setIdx node.keyArray i (node.keyArray (i - 1))
                      pageNoArray := setIdx node.pageNoArray (i + 1)
                        (node.pageNoArray i) }
        match i with
        | 0 =>
          { node' with keyArray := setIdx node'.keyArray 0 e.key
                       pageNoArray := setIdx node'.pageNoArray 1 e.pageNo }
        | i' + 1 => insertInternalLoop e node' i'
      else
        { node with keyArray := setIdx node.keyArray i e.key
                    pageNoArray := setIdx node.pageNoArray (i + 1) e.pageNo }

/-- `BTreeIndex::insertInternal` (submission lines 463-482): the loop runs
from `i = nodeOccupancy`. -/
def insertInternal (nodeOccupancy : Nat) (node : NonLeafNodeInt)
    (e : PageKeyPair) : NonLeafNodeInt :=
  insertInternalLoop e node nodeOccupancy

/-- One iteration of the move loop of `BTreeIndex::splitInternal`
(submission lines 428-433) at index `i`:
`newNode.keyArray[i-mid] = oldNode.keyArray[i];
newNode.pageNoArray[i-mid] = oldNode.pageNoArray[i+1];
oldNode.pageNoArray[i+1] = 0; oldNode.keyArray[i+1] = 0;` — note the
source zeroes `keyArray[i+1]`, the very slot the next iteration reads. -/
def splitInternalMoveStep (mid i : Nat) (p : NonLeafNodeInt × NonLeafNodeInt) :
    NonLeafNodeInt × NonLeafNodeInt :=
  let old := p.1
  let nw := p.2
  let nw' :=
    { nw with keyArray := setIdx nw.keyArray (i - mid) (old.keyArray i)
              pageNoArray := setIdx nw.pageNoArray (i - mid)
                (old.pageNoArray (i + 1)) }
  let old' :=
    { old with pageNoArray := setIdx old.pageNoArray (i + 1) 0
               keyArray := setIdx old.keyArray (i + 1) 0 }
  (old', nw')

/-- The move loop of `splitInternal`, `n` iterations from index `i`. -/
def splitInternalMoveFrom (mid : Nat) :
    Nat → Nat → NonLeafNodeInt × NonLeafNodeInt →
    NonLeafNodeInt × NonLeafNodeInt
  | _, 0, p => p
  | i, n + 1, p =>
    splitInternalMoveFrom mid (i + 1) n (splitInternalMoveStep mid i p)

/-- `BTreeIndex::splitRoot` (submission lines 285-314) as a state
transformer: allocate the new root, set `level` to 1 exactly when the old
root still is the initial (leaf) root, wire `keyArray[0]`,
`pageNoArray[0]`, `pageNoArray[1]`, and update the header's and the
engine's root page id. -/
def splitRoot (s : BTreeState) (firstPage : Nat) (pending : PageKeyPair) :
    BTreeState :=
  let newRootPageNum := s.nextFreePage
  let level : Int := if s.initialRootPageId = s.rootPageNum then 1 else 0
  let newRoot : NonLeafNodeInt :=
    { level := level
      keyArray := setIdx allocNonLeafPage.keyArray 0 pending.key
      pageNoArray :=
        setIdx (setIdx allocNonLeafPage.pageNoArray 0 firstPage) 1
          pending.pageNo }
  { s with nextFreePage := s.nextFreePage + 1
           store := setIdx s.store newRootPageNum (NodePage.internal newRoot)
           metaRootPageNo := newRootPageNum
           rootPageNum := newRootPageNum }

/-- `BTreeIndex::splitLeaf` at the state level: allocate the new page, run
the pure split, write both leaves back, split the root when the old leaf
was the root, and hand the caller the copy-up entry — in the source through
`newInternal = &newKeyPair`, a pointer to a local that is dead once this
frame returns, hence the `true` flag. -/
def splitLeafState (s : BTreeState) (leaf : LeafNodeInt) (leafPageId : Nat)
    (newEntry : RIDKeyPair) : BTreeState × Option (PageKeyPair × Bool) :=
  let newPageId := s.nextFreePage
  let r := splitLeaf s.leafOccupancy leaf newPageId newEntry
  let s1 :=
    { s with nextFreePage := s.nextFreePage + 1
             store := setIdx (setIdx s.store leafPageId (NodePage.leaf r.leaf))
               newPageId (NodePage.leaf r.newLeaf) }
  let s2 := if leafPageId = s1.rootPageNum then splitRoot s1 leafPageId r.copyUp
            else s1
  (s2, some (r.copyUp, true))

/-- `BTreeIndex::splitInternal` (submission lines 403-454) at the state
level: compute `pushupIndex` (`mid` for odd capacity; for even capacity
`mid-1` when the incoming key is below `keyArray[mid]`, else `mid`), move
keys `[pushupIndex+1, N)` and children `[pushupIndex+2, N+1)` across with
the source's zeroing order, zero `keyArray[pushupIndex]` and
`pageNoArray[pushupIndex]`, insert the incoming entry into the side chosen
by `newInternal->key < newNode->keyArray[0]`, split the root if needed, and
return the push-up entry — again the address of a local (`pushupEntry`). -/
def splitInternalState (s : BTreeState) (oldNode : NonLeafNodeInt)
    (oldPageId : Nat) (pending : PageKeyPair) :
    BTreeState × Option (PageKeyPair × Bool) :=
  let newPageId := s.nextFreePage
  let s0 := { s with nextFreePage := s.nextFreePage + 1 }
  let nodeOcc := s.nodeOccupancy
  let mid := nodeOcc / 2
  let pushupIndex :=
    if nodeOcc % 2 = 0 then
      if pending.key < oldNode.keyArray mid then mid - 1 else mid
    else mid
  let pushupEntry : PageKeyPair :=
    { pageNo := newPageId, key := oldNode.keyArray pushupIndex }
  let moved :=
    splitInternalMoveFrom (pushupIndex + 1) (pushupIndex + 1)
      (nodeOcc - (pushupIndex + 1)) (oldNode, allocNonLeafPage)
  let newNode1 := { moved.2 with level := oldNode.level }
  let oldNode1 :=
    { moved.1 with keyArray := setIdx moved.1.keyArray pushupIndex 0
                   pageNoArray := setIdx moved.1.pageNoArray pushupIndex 0 }
  let intoOld : Bool := decide (pending.key < newNode1.keyArray 0)
  let oldNode2 := if intoOld then insertInternal nodeOcc oldNode1 pending
                  else oldNode1
  let newNode2 := if intoOld then newNode1
                  else insertInternal nodeOcc newNode1 pending
  let s1 :=
    { s0 with store := (setIdx (setIdx s0.store oldPageId
                         (NodePage.internal oldNode2))
                         newPageId (NodePage.internal newNode2)) }
  let s2 := if oldPageId = s1.rootPageNum then splitRoot s1 oldPageId pushupEntry
            else s1
  (s2, some (pushupEntry, true))

/-- `BTreeIndex::insert` (submission lines 223-260), fuelled for
termination (every run evaluated below stays far below the fuel).  On the
leaf side: insert in place when `ridArray[leafOccupancy-1]` is free, else
split.  On the interior side: route with `findNextInternal`, recurse with
`isLeaf = currNode->level` (the int-to-bool conversion of the source, i.e.
`level ≠ 0`), then, when the child handed back a pending entry, dereference
it — setting `danglingUse` when that pointer aims at a dead local — and
either insert it here or split this node. -/
def insertRec (newEntry : RIDKeyPair) :
    Nat → BTreeState → Nat → Bool → BTreeState × Option (PageKeyPair × Bool)
  | 0, s, _, _ => (s, none)
  | fuel + 1, s, currPageId, isLeaf =>
    if isLeaf then
      let leaf := asLeaf (s.store currPageId)
      if (leaf.ridArray (s.leafOccupancy - 1)).page_number = 0 then
        ({ s with store := (setIdx s.store currPageId
             (NodePage.leaf (insertLeaf s.leafOccupancy leaf newEntry))) },
         none)
      else
        splitLeafState s leaf currPageId newEntry
    else
      let currNode := asInternal (s.store currPageId)
      let nextNodeId := findNextInternal s.nodeOccupancy currNode newEntry.key
      let rec1 := insertRec newEntry fuel s nextNodeId (currNode.level ≠ 0)
      match rec1.2 with
      | none => (rec1.1, none)
      | some (pending, dead) =>
        let s2 := { rec1.1 with danglingUse := rec1.1.danglingUse || dead }
        if currNode.pageNoArray s2.nodeOccupancy = 0 then
          ({ s2 with store := (setIdx s2.store currPageId
               (NodePage.internal (insertInternal s2.nodeOccupancy currNode
                 pending))) },
           none)
        else
          splitInternalState s2 currNode currPageId pending

/-- `BTreeIndex::insertEntry` (submission lines 202-212): wrap the key and
rid, read the root and insert, with `isLeaf = (initialRootPageId ==
rootPageNum)`; the pending entry handed back by the top call is ignored. -/
def insertEntry (fuel : Nat) (s : BTreeState) (key : Int) (rid : RecordId) :
    BTreeState :=
  (insertRec { rid := rid, key := key } fuel s s.rootPageNum
    (s.initialRootPageId = s.rootPageNum)).1

/-- The constructor's build loop: insert every record of the relation. -/
def insertAll (fuel : Nat) (s : BTreeState) (records : List (Int × RecordId)) :
    BTreeState :=
  records.foldl (fun s e => insertEntry fuel s e.1 e.2) s

/-! ### Concrete states used by witnesses and counterexamples -/

/-- A full leaf of capacity 2 holding keys 1 and 2 (rids point at base
page 5, slots 1 and 2), no right sibling. -/
def fullLeafTwo : LeafNodeInt :=
  { keyArray := fun i => if i = 0 then 1 else if i = 1 then 2 else 0
    ridArray := fun i =>
      if i = 0 then { page_number := 5, slot_number := 1 }
      else if i = 1 then { page_number := 5, slot_number := 2 }
      else { page_number := 0, slot_number := 0 }
    rightSibPageNo := 0 }

/-- A page store whose every page reads as an empty leaf. -/
def emptyLeafStore : Nat → LeafNodeInt := fun _ => allocLeafPage

/-- An executing scan with capacity 2, bounds `[0, 10]` under `GTE`/`LTE`,
pinned on `fullLeafTwo` (page 2) with `nextEntry = 1` — i.e. about to
return the leaf's last entry. -/
def scanAtLastEntry : ScanState :=
  { leafOccupancy := 2
    nodeOccupancy := 2
    rootPageNum := 2
    initialRootPageId := 2
    scanExecuting := true
    lowValInt := 0
    highValInt := 10
    lowOp := Operator.GTE
    highOp := Operator.LTE
    currentPageNum := 2
    currentPageData := some fullLeafTwo
    nextEntry := 1 }

/-- The index's scan state before any `startScan`: `scanExecuting` false. -/
def freshScanState : ScanState :=
  { scanAtLastEntry with scanExecuting := false, nextEntry := 0 }

/-- Engine state right after the constructor created a fresh index file
with capacities `L` and `N`: header page 1, root page 2 (an empty leaf),
`initialRootPageId = rootPageNum = 2`. -/
def initBTreeState (L N : Nat) : BTreeState :=
  { leafOccupancy := L
    nodeOccupancy := N
    headerPageNum := 1
    rootPageNum := 2
    initialRootPageId := 2
    metaRootPageNo := 2
    store := setIdx (fun _ => NodePage.free) 2 (NodePage.leaf allocLeafPage)
    nextFreePage := 3
    danglingUse := false }

/-! ## Theorems -/

/-- C8: at relation name `"rel"` and attribute byte offset `1` the
submission constructor names the index file `"rel.1"`, as the claim states,
but the src-variant constructor names it `"rel . 1"` — spaces around the
dot — which is a different string. -/
theorem indexName_at_rel_one :
    submissionIndexName "rel" 1 = "rel.1" ∧
    srcIndexName "rel" 1 = "rel . 1" ∧ "rel . 1" ≠ "rel.1" :=
  ⟨rfl, rfl, by decide⟩

/-- C3: on the create-new-file path the constructor leaves the initial root
page an empty leaf: `rightSibPageNo = 0` and every rid slot has
`page_number = 0`, before any record is inserted. -/
theorem buildNewIndex_root_empty_leaf (relationName : String)
    (attrByteOffset : Int) (attrType : Datatype) (rootPageNum : Nat) :
    (buildNewIndex relationName attrByteOffset attrType
      rootPageNum).2.rightSibPageNo = 0 ∧
    ∀ i, ((buildNewIndex relationName attrByteOffset attrType
      rootPageNum).2.ridArray i).page_number = 0 :=
  ⟨rfl, fun _ => rfl⟩

/-- C4: opening an existing index file whose stored relation name `"r1"`
differs from the constructor argument `"r2"`, both variants throw
`BadIndexInfoException`, but the submission constructor throws before its
`unPinPage` call, leaving the header page (page 1) pinned (net pin balance
1), while the src variant unpins the header before the check (balance 0). -/
theorem openExisting_mismatch_leaves_header_pinned :
    (submissionOpenExisting ⟨"r1", 0, Datatype.INTEGER, 2⟩ "r2"
      Datatype.INTEGER 0 1).2 = some BTreeError.badIndexInfo ∧
    pinBalance 1 (submissionOpenExisting ⟨"r1", 0, Datatype.INTEGER, 2⟩ "r2"
      Datatype.INTEGER 0 1).1 = 1 ∧
    (srcOpenExisting ⟨"r1", 0, Datatype.INTEGER, 2⟩ "r2"
      Datatype.INTEGER 0 1).2 = some BTreeError.badIndexInfo ∧
    pinBalance 1 (srcOpenExisting ⟨"r1", 0, Datatype.INTEGER, 2⟩ "r2"
      Datatype.INTEGER 0 1).1 = 0 :=
  ⟨rfl, rfl, rfl, rfl⟩

/-- C1: with capacities `L = N = 3`, inserting the keys 1..4 splits the
root leaf once (the copy-up local is still alive when `splitRoot` reads
it — no dangling use), but inserting 1..5 makes the fifth insert split a
leaf below the now-interior root, and the parent frame then dereferences
the pending copy-up entry through the address of `splitLeaf`'s dead local
`newKeyPair`. -/
theorem insertEntry_dangling_copyUp_use :
    (insertAll 9 (initBTreeState 3 3)
      [(1, ⟨1, 1⟩), (2, ⟨1, 2⟩), (3, ⟨1, 3⟩), (4, ⟨1, 4⟩)]).danglingUse
      = false ∧
    (insertAll 9 (initBTreeState 3 3)
      [(1, ⟨1, 1⟩), (2, ⟨1, 2⟩), (3, ⟨1, 3⟩), (4, ⟨1, 4⟩),
       (5, ⟨1, 5⟩)]).danglingUse = true :=
  ⟨rfl, rfl⟩

/-- C5: `startScan` raises `BadOpcodesException` exactly when the operator
pair is outside {GT, GTE} x {LT, LTE}, and `BadScanrangeException` exactly
when the pair is valid and the low bound exceeds the high bound — so the
opcode check precedes the range check and a call with both faults raises
`BadOpcodesException`. -/
theorem startScan_validates_opcodes_then_range (s : ScanState)
    (lowVal highVal : Int) (lowOp highOp : Operator) :
    ((startScanPrologue s lowVal lowOp highVal highOp).2.2
        = some BTreeError.badOpcodes ↔
      ¬ ((lowOp = Operator.GT ∨ lowOp = Operator.GTE) ∧
         (highOp = Operator.LT ∨ highOp = Operator.LTE))) ∧
    ((startScanPrologue s lowVal lowOp highVal highOp).2.2
        = some BTreeError.badScanrange ↔
      ((lowOp = Operator.GT ∨ lowOp = Operator.GTE) ∧
       (highOp = Operator.LT ∨ highOp = Operator.LTE)) ∧ lowVal > highVal) := by
  by_cases hop : (lowOp = Operator.GT ∨ lowOp = Operator.GTE) ∧
      (highOp = Operator.LT ∨ highOp = Operator.LTE)
  · by_cases hrange : lowVal > highVal
    · simp [startScanPrologue, hop, hrange]
    · simp [startScanPrologue, hop, hrange]
  · simp [startScanPrologue, hop]

/-- C9: when `startScan` throws `BadOpcodesException` or
`BadScanrangeException` while a scan is executing, it neither ends that scan
nor touches its state: `scanExecuting`, `currentPageNum`, `currentPageData`
and `nextEntry` are unchanged and no buffer-manager call is made, so the
pinned scan leaf stays pinned (both validations precede the conditional
`endScan`). -/
theorem startScan_error_preserves_scan (s : ScanState) (lowVal highVal : Int)
    (lowOp highOp : Operator) (e : BTreeError)
    (hexec : s.scanExecuting = true)
    (h : (startScanPrologue s lowVal lowOp highVal highOp).2.2 = some e) :
    (startScanPrologue s lowVal lowOp highVal highOp).1.scanExecuting
        = s.scanExecuting ∧
    (startScanPrologue s lowVal lowOp highVal highOp).1.currentPageNum
        = s.currentPageNum ∧
    (startScanPrologue s lowVal lowOp highVal highOp).1.currentPageData
        = s.currentPageData ∧
    (startScanPrologue s lowVal lowOp highVal highOp).1.nextEntry
        = s.nextEntry ∧
    (startScanPrologue s lowVal lowOp highVal highOp).2.1 = [] := by
  by_cases hop : (lowOp = Operator.GT ∨ lowOp = Operator.GTE) ∧
      (highOp = Operator.LT ∨ highOp = Operator.LTE)
  · by_cases hrange : lowVal > highVal
    · simp [startScanPrologue, hop, hrange]
    · simp [startScanPrologue, hop, hrange] at h
  · simp [startScanPrologue, hop]

/-- C9 witness: `startScan(0, LT, 5, LTE)` on the executing scan
`scanAtLastEntry` throws `BadOpcodesException` and leaves the scan state and
the pin untouched. -/
theorem startScan_error_preserves_scan_witness :
    (startScanPrologue scanAtLastEntry 0 Operator.LT 5
        Operator.LTE).1.scanExecuting = scanAtLastEntry.scanExecuting ∧
    (startScanPrologue scanAtLastEntry 0 Operator.LT 5
        Operator.LTE).1.currentPageNum = scanAtLastEntry.currentPageNum ∧
    (startScanPrologue scanAtLastEntry 0 Operator.LT 5
        Operator.LTE).1.currentPageData = scanAtLastEntry.currentPageData ∧
    (startScanPrologue scanAtLastEntry 0 Operator.LT 5
        Operator.LTE).1.nextEntry = scanAtLastEntry.nextEntry ∧
    (startScanPrologue scanAtLastEntry 0 Operator.LT 5 Operator.LTE).2.1
        = [] :=
  startScan_error_preserves_scan scanAtLastEntry 0 5 Operator.LT Operator.LTE
    BTreeError.badOpcodes rfl rfl

/-- C7: `scanNext` with no executing scan throws
`ScanNotInitializedException` and changes nothing: the state, the caller's
`outRid`, the buffer pool and the access trace are all untouched. -/
theorem scanNext_not_initialized (store : Nat → LeafNodeInt) (s : ScanState)
    (outRid : RecordId) (h : s.scanExecuting = false) :
    scanNext store s outRid =
      { state := s, outRid := outRid,
        error := some BTreeError.scanNotInitialized, ops := [],
        accesses := [] } := by
  unfold scanNext
  rw [h]
  simp

/-- C7 witness: `scanNext` on the fresh (never-scanned) state throws
`ScanNotInitializedException` and leaves everything unchanged. -/
theorem scanNext_not_initialized_witness :
    scanNext emptyLeafStore freshScanState ⟨9, 9⟩ =
      { state := freshScanState, outRid := ⟨9, 9⟩,
        error := some BTreeError.scanNotInitialized, ops := [],
        accesses := [] } :=
  scanNext_not_initialized emptyLeafStore freshScanState ⟨9, 9⟩ rfl

/-- C6: `findNextInternal` returns `pageNoArray[i]` for the largest
`i ∈ [1, nodeOccupancy]` with `pageNoArray[i] ≠ 0` and `keyArray[i-1] <
key`, and `pageNoArray[0]` when no such `i` exists. -/
theorem findNextInternal_routes_to_largest (nodeOccupancy : Nat)
    (internal : NonLeafNodeInt) (key : Int) :
    (∃ i, 1 ≤ i ∧ i ≤ nodeOccupancy ∧ routeHit internal key i ∧
      (∀ j, i < j → j ≤ nodeOccupancy → ¬ routeHit internal key j) ∧
      findNextInternal nodeOccupancy internal key = internal.pageNoArray i) ∨
    ((∀ i, 1 ≤ i → i ≤ nodeOccupancy → ¬ routeHit internal key i) ∧
      findNextInternal nodeOccupancy internal key = internal.pageNoArray 0) := by
  unfold findNextInternal
  induction nodeOccupancy with
  | zero =>
    right
    exact ⟨fun i h1 h2 => absurd (Nat.le_trans h1 h2) (by omega), rfl⟩
  | succ n ih =>
    by_cases h : routeHit internal key (n + 1)
    · left
      refine ⟨n + 1, by omega, Nat.le_refl _, h,
        fun j hj hj' => absurd hj (by omega), ?_⟩
      have hcond : internal.pageNoArray (n + 1) ≠ 0 ∧
          internal.keyArray n < key := by
        have h2 := h
        unfold routeHit at h2
        simpa using h2
      simp [findNextLoop, hcond]
    · have hcond : ¬ (internal.pageNoArray (n + 1) ≠ 0 ∧
          internal.keyArray n < key) := by
        intro hc
        exact h ⟨hc.1, by simpa using hc.2⟩
      have hstep : findNextLoop internal key (n + 1)
          = findNextLoop internal key n := by
        simp [findNextLoop, hcond]
      rcases ih with ⟨i, h1, h2, h3, h4, h5⟩ | ⟨h1, h2⟩
      · left
        refine ⟨i, h1, by omega, h3, fun j hj hj' => ?_, by rw [hstep, h5]⟩
        rcases Nat.lt_or_ge j (n + 1) with hlt | hge
        · exact h4 j hj (by omega)
        · have hje : j = n + 1 := by omega
          rw [hje]
          exact h
      · right
        refine ⟨fun i hi1 hi2 => ?_, by rw [hstep, h2]⟩
        rcases Nat.lt_or_ge i (n + 1) with hlt | hge
        · exact h1 i hi1 (by omega)
        · have hie : i = n + 1 := by omega
          rw [hie]
          exact h

/-- Helper for C10: with an executing scan, the `keyArray`/`ridArray`
subscripts one `scanNext` call uses are the entry value of `nextEntry`
possibly followed by repetitions of the index actually read (0 after a jump
to the right sibling, `nextEntry` otherwise). -/
theorem scanNext_accesses_cases (store : Nat → LeafNodeInt) (s : ScanState)
    (outRid : RecordId) (hexec : s.scanExecuting = true) :
    (scanNext store s outRid).accesses = [s.nextEntry] ∨
    (scanNext store s outRid).accesses = [s.nextEntry, 0] ∨
    (scanNext store s outRid).accesses = [s.nextEntry, 0, 0] ∨
    (scanNext store s outRid).accesses = [s.nextEntry, s.nextEntry] ∨
    (scanNext store s outRid).accesses
      = [s.nextEntry, s.nextEntry, s.nextEntry] := by
  unfold scanNext scanNextFinish
  simp only [hexec]
  split_ifs <;> simp_all

/-- C10 (amended): provided `0 ≤ nextEntry < leafOccupancy` on entry, every
`keyArray`/`ridArray` subscript a `scanNext` call uses is in bounds.  (The
counterexample shows the proviso is needed: at `nextEntry = leafOccupancy`
the end-of-leaf test subscripts `ridArray` at `leafOccupancy` first.) -/
theorem scanNext_accesses_bounded (store : Nat → LeafNodeInt) (s : ScanState)
    (outRid : RecordId) (hexec : s.scanExecuting = true)
    (h0 : 0 ≤ s.nextEntry) (hlt : s.nextEntry < (s.leafOccupancy : Int)) :
    ∀ a ∈ (scanNext store s outRid).accesses,
      0 ≤ a ∧ a < (s.leafOccupancy : Int) := by
  intro a ha
  have hmem : a = s.nextEntry ∨ a = 0 := by
    rcases scanNext_accesses_cases store s outRid hexec with h | h | h | h | h <;>
      rw [h] at ha <;> simp at ha <;> tauto
  rcases hmem with rfl | rfl <;> exact ⟨by omega, by omega⟩

/-- C10 witness: the scan `scanAtLastEntry` (capacity 2, `nextEntry = 1`)
subscripts index 1, which is in bounds. -/
theorem scanNext_accesses_bounded_witness :
    0 ≤ (1 : Int) ∧ (1 : Int) < ((scanAtLastEntry.leafOccupancy : Nat) : Int) :=
  scanNext_accesses_bounded emptyLeafStore scanAtLastEntry ⟨0, 0⟩ rfl
    (by decide) (by decide) 1 (by decide)

/-- C10 counterexample: from `scanAtLastEntry` (a full leaf of capacity 2,
`nextEntry = 1`) one successful `scanNext` advances `nextEntry` to 2 =
`leafOccupancy`; the following `scanNext` subscripts `ridArray` at 2, an
index not below `leafOccupancy`, before testing `nextEntry ==
leafOccupancy` — refuting the claim that every access index is in bounds. -/
theorem scanNext_reads_past_leaf_end :
    (scanNext emptyLeafStore scanAtLastEntry ⟨0, 0⟩).error = none ∧
    (scanNext emptyLeafStore scanAtLastEntry ⟨0, 0⟩).state.nextEntry
      = (scanAtLastEntry.leafOccupancy : Int) ∧
    (scanNext emptyLeafStore
      (scanNext emptyLeafStore scanAtLastEntry ⟨0, 0⟩).state ⟨0, 0⟩).accesses
      = [2] ∧
    ¬ ((2 : Int) < (scanAtLastEntry.leafOccupancy : Int)) :=
  ⟨rfl, rfl, rfl, by decide⟩

/-- Index-level characterisation of one pass of the split copy loop
(`splitLeafMoveFrom`), by induction on the iteration count: the old leaf is
zeroed on `[i, i+n)` and untouched elsewhere, and the new leaf receives the
old leaf's slots shifted down by `mid`. -/
theorem splitLeafMoveFrom_spec (mid : Nat) :
    ∀ (n i : Nat) (p : LeafNodeInt × LeafNodeInt), mid ≤ i →
      (∀ j, (splitLeafMoveFrom mid i n p).1.keyArray j =
          if i ≤ j ∧ j < i + n then 0 else p.1.keyArray j) ∧
      (∀ j, (splitLeafMoveFrom mid i n p).1.ridArray j =
          if i ≤ j ∧ j < i + n then
            { p.1.ridArray j with page_number := 0 }
          else p.1.ridArray j) ∧
      (∀ j, (splitLeafMoveFrom mid i n p).2.keyArray j =
          if i - mid ≤ j ∧ j < i - mid + n then p.1.keyArray (mid + j)
          else p.2.keyArray j) ∧
      (∀ j, (splitLeafMoveFrom mid i n p).2.ridArray j =
          if i - mid ≤ j ∧ j < i - mid + n then p.1.ridArray (mid + j)
          else p.2.ridArray j) := by
  intro n
  induction n with
  | zero =>
    intro i p hmi
    refine ⟨?_, ?_, ?_, ?_⟩ <;> intro j <;>
      rw [if_neg (by omega)] <;> rfl
  | succ n ih =>
    intro i p hmi
    obtain ⟨hk, hr, hnk, hnr⟩ :=
      ih (i + 1) (splitLeafMoveStep mid i p) (by omega)
    have hstepk : ∀ j, (splitLeafMoveStep mid i p).1.keyArray j =
        if j = i then 0 else p.1.keyArray j := by
      intro j
      simp [splitLeafMoveStep, setIdx]
    have hstepr : ∀ j, (splitLeafMoveStep mid i p).1.ridArray j =
        if j = i then { p.1.ridArray j with page_number := 0 }
        else p.1.ridArray j := by
      intro j
      by_cases hj : j = i
      · rw [hj]
        simp [splitLeafMoveStep, setIdx]
      · simp [splitLeafMoveStep, setIdx, hj]
    have hstepnk : ∀ j, (splitLeafMoveStep mid i p).2.keyArray j =
        if j = i - mid then p.1.keyArray i else p.2.keyArray j := by
      intro j
      simp [splitLeafMoveStep, setIdx]
    have hstepnr : ∀ j, (splitLeafMoveStep mid i p).2.ridArray j =
        if j = i - mid then p.1.ridArray i else p.2.ridArray j := by
      intro j
      simp [splitLeafMoveStep, setIdx]
    have hrun : splitLeafMoveFrom mid i (n + 1) p =
        splitLeafMoveFrom mid (i + 1) n (splitLeafMoveStep mid i p) := rfl
    refine ⟨?_, ?_, ?_, ?_⟩ <;> intro j <;> rw [hrun]
    · rw [hk j]
      by_cases h1 : i + 1 ≤ j ∧ j < i + 1 + n
      · rw [if_pos h1, if_pos (by omega)]
      · rw [if_neg h1, hstepk j]
        by_cases h2 : j = i
        · rw [if_pos h2, if_pos (by omega)]
        · rw [if_neg h2, if_neg (by omega)]
    · rw [hr j]
      by_cases h1 : i + 1 ≤ j ∧ j < i + 1 + n
      · rw [if_pos h1, if_pos (by omega)]
        rw [hstepr j, if_neg (by omega)]
      · rw [if_neg h1, hstepr j]
        by_cases h2 : j = i
        · rw [if_pos h2, if_pos (by omega)]
        · rw [if_neg h2, if_neg (by omega)]
    · rw [hnk j]
      by_cases h1 : i + 1 - mid ≤ j ∧ j < i + 1 - mid + n
      · rw [if_pos h1, if_pos (by omega)]
        rw [hstepk (mid + j), if_neg (by omega)]
      · rw [if_neg h1, hstepnk j]
        by_cases h2 : j = i - mid
        · rw [if_pos h2, if_pos (by omega)]
          congr 1
          omega
        · rw [if_neg h2, if_neg (by omega)]
    · rw [hnr j]
      by_cases h1 : i + 1 - mid ≤ j ∧ j < i + 1 - mid + n
      · rw [if_pos h1, if_pos (by omega)]
        rw [hstepr (mid + j), if_neg (by omega)]
      · rw [if_neg h1, hstepnr j]
        by_cases h2 : j = i - mid
        · rw [if_pos h2, if_pos (by omega)]
          congr 1
          omega
        · rw [if_neg h2, if_neg (by omega)]

/-- C2 (amended): for a leaf of capacity `L ≥ 2`, the split point is
`mid = L/2 + 1` when `L` is even and `mid = L/2` when `L` is odd (the
opposite parity rule to the claim's); the copy loop moves slots `[mid, L)`
to indices `0 .. L-mid-1` of the new leaf, zeroing the old slots' keys and
rid page numbers and leaving slots below `mid` untouched; and the new entry
goes to the new leaf exactly when its key exceeds the old leaf's key at
index `mid - 1`. -/
theorem splitLeaf_spec (L : Nat) (leaf : LeafNodeInt) (newPageId : Nat)
    (newEntry : RIDKeyPair) (hL : 2 ≤ L) :
    splitLeafMid L = (if L % 2 = 0 then L / 2 + 1 else L / 2) ∧
    (∀ j, j < L - splitLeafMid L →
      (splitLeafMove (splitLeafMid L) L leaf allocLeafPage).2.keyArray j
          = leaf.keyArray (splitLeafMid L + j) ∧
      (splitLeafMove (splitLeafMid L) L leaf allocLeafPage).2.ridArray j
          = leaf.ridArray (splitLeafMid L + j)) ∧
    (∀ i, splitLeafMid L ≤ i → i < L →
      (splitLeafMove (splitLeafMid L) L leaf allocLeafPage).1.keyArray i = 0 ∧
      ((splitLeafMove (splitLeafMid L) L leaf
        allocLeafPage).1.ridArray i).page_number = 0) ∧
    (∀ i, i < splitLeafMid L →
      (splitLeafMove (splitLeafMid L) L leaf allocLeafPage).1.keyArray i
          = leaf.keyArray i ∧
      (splitLeafMove (splitLeafMid L) L leaf allocLeafPage).1.ridArray i
          = leaf.ridArray i) ∧
    ((splitLeaf L leaf newPageId newEntry).insertedIntoNew = true ↔
      newEntry.key > leaf.keyArray (splitLeafMid L - 1)) := by
  have hmid : splitLeafMid L = (if L % 2 = 0 then L / 2 + 1 else L / 2) := by
    unfold splitLeafMid
    by_cases h : L % 2 = 0 <;> simp [h]
  have hml : splitLeafMid L ≤ L := by
    rw [hmid]
    split_ifs <;> omega
  have hm1 : 1 ≤ splitLeafMid L := by
    rw [hmid]
    split_ifs <;> omega
  obtain ⟨hk, hr, hnk, hnr⟩ :=
    splitLeafMoveFrom_spec (splitLeafMid L) (L - splitLeafMid L)
      (splitLeafMid L) (leaf, allocLeafPage) (Nat.le_refl _)
  have hbelowk : ∀ i, i < splitLeafMid L →
      (splitLeafMove (splitLeafMid L) L leaf allocLeafPage).1.keyArray i
        = leaf.keyArray i := by
    intro i hi
    simp only [splitLeafMove]
    rw [hk i, if_neg (by omega)]
  refine ⟨hmid, ?_, ?_, ?_, ?_⟩
  · intro j hj
    constructor
    · simp only [splitLeafMove]
      rw [hnk j, if_pos (by omega)]
    · simp only [splitLeafMove]
      rw [hnr j, if_pos (by omega)]
  · intro i hi1 hi2
    constructor
    · simp only [splitLeafMove]
      rw [hk i, if_pos (by omega)]
    · simp only [splitLeafMove]
      rw [hr i, if_pos (by omega)]
  · intro i hi
    constructor
    · exact hbelowk i hi
    · simp only [splitLeafMove]
      rw [hr i, if_neg (by omega)]
  · have hbelow := hbelowk (splitLeafMid L - 1) (by omega)
    simp only [splitLeaf]
    simp only [decide_eq_true_eq]
    rw [hbelow]

/-- C2 witness: at even capacity `L = 4` the split point is `4/2 + 1 = 3`. -/
theorem splitLeaf_spec_witness :
    splitLeafMid 4 = (if (4 : Nat) % 2 = 0 then 4 / 2 + 1 else 4 / 2) :=
  (splitLeaf_spec 4 fullLeafTwo 9 ⟨⟨1, 1⟩, 5⟩ (by omega)).1

/-- C2 counterexample: the claim's parity rule (`mid = L/2` for even `L`,
`(L/2)+1` for odd `L`) fails on the code at `L = 4` (code: 3, claim: 2) and
at `L = 3` (code: 1, claim: 2). -/
theorem splitLeafMid_cex :
    splitLeafMid 4 = 3 ∧ splitLeafMid 3 = 1 ∧
    ¬ (splitLeafMid 4 = 4 / 2) ∧ ¬ (splitLeafMid 3 = 3 / 2 + 1) := by
  decide

end badgerdb
